import Mathlib

/-!
Shallow embedding of `mmm.py` (Matthew's Mobile Menu), a single-file Python
script: an interactive hierarchical text menu that injects a chosen shell
command into the controlling terminal via `ioctl(0, TIOCSTI, byte)`.

Python strings are modelled as `List Char`; Python `bytes` as `List Nat`
(byte values); the mutable object graph (the `MmmState` menu stack and the
mutable `CdSubmenu.menu_items` lists) as an explicit heap: a list of menu
objects indexed by position, with the stack holding indices.  Python
exceptions (`ValueError` from `int`, `IndexError` from list indexing,
`AttributeError`) are explicit error values; an uncaught exception makes
the run loop end in a `crash` outcome, matching the script's lack of any
`try`/`except` around its loop.  The filesystem (directory listing used by
`CdSubmenu.get_valid_subdirs`) and the lines of `.mmm-menufile` are
parameters, since the script reads them through `pathlib` / file iteration.
-/

namespace Mmm

/-- Python `str` modelled as a list of characters. -/
abbrev Str := List Char

/-- Coerce a Lean string literal to the `Str` model. -/
def str (s : String) : Str := s.data

/-- The characters Python `str.rstrip()` / `str.strip()` remove (ASCII
fragment of Python's whitespace set). -/
def isPySpace (c : Char) : Bool :=
  c = ' ' || c = '\t' || c = '\n' || c = '\x0d' || c = '\x0b' || c = '\x0c'

/-- Python `s.rstrip()` with no argument: remove the longest suffix of
whitespace characters. -/
def rstrip (s : Str) : Str :=
  (s.reverse.dropWhile isPySpace).reverse

/-- Python `s.lstrip()`: remove the longest whitespace prefix. -/
def lstrip (s : Str) : Str :=
  s.dropWhile isPySpace

/-- Value of a digit character. -/
def digitVal (c : Char) : Nat := c.toNat - 48

/-- Helper for `digitsVal`: accumulate the remaining digit characters,
allowing a single `_` between two digits (Python numeric literal rule). -/
def digitsValAux (acc : Nat) : List Char → Option Nat
  | [] => some acc
  | c :: cs =>
    if c.isDigit then digitsValAux (acc * 10 + digitVal c) cs
    else if c = '_' then
      match cs with
      | d :: _ => if d.isDigit then digitsValAux acc cs else none
      | [] => none
    else none

/-- Parse a nonempty digit string (with optional single underscores between
digits, as Python `int` accepts) to its base-10 value. -/
def digitsVal : List Char → Option Nat
  | [] => none
  | c :: cs => if c.isDigit then digitsValAux (digitVal c) cs else none

/-- Python `int(s)` on a string (ASCII fragment): strip surrounding
whitespace, optional sign, then base-10 digits; `none` models the
`ValueError` raised when parsing fails. -/
def pyInt (s : Str) : Option Int :=
  match lstrip (rstrip s) with
  | [] => none
  | '+' :: ds => (digitsVal ds).map (Int.ofNat)
  | '-' :: ds => (digitsVal ds).map (fun n => -(n : Int))
  | ds => (digitsVal ds).map (Int.ofNat)

/-- Python list indexing `l[i]`: negative indices count from the end;
`none` models the `IndexError` raised when the index is out of range. -/
def pyIndex {α : Type} (l : List α) (i : Int) : Option α :=
  if 0 ≤ i then l.get? i.toNat
  else if 0 ≤ (l.length : Int) + i then l.get? ((l.length : Int) + i).toNat
  else none

/-- Decimal rendering of a natural number, as Python's `f"{i}"` renders a
nonnegative `int`. -/
def natStr (n : Nat) : Str := (Nat.repr n).data

/-- UTF-8 encoding of one character, as Python `str.encode('utf-8')`
produces for it. -/
def utf8EncodeChar (c : Char) : List Nat :=
  let n := c.toNat
  if n < 0x80 then [n]
  else if n < 0x800 then
    [0xC0 ||| (n >>> 6), 0x80 ||| (n &&& 0x3F)]
  else if n < 0x10000 then
    [0xE0 ||| (n >>> 12), 0x80 ||| ((n >>> 6) &&& 0x3F), 0x80 ||| (n &&& 0x3F)]
  else
    [0xF0 ||| (n >>> 18), 0x80 ||| ((n >>> 12) &&& 0x3F),
     0x80 ||| ((n >>> 6) &&& 0x3F), 0x80 ||| (n &&& 0x3F)]

/-- Python `s.encode('utf-8')` as a list of byte values. -/
def utf8Encode (s : Str) : List Nat := s.flatMap utf8EncodeChar

/-- `shlex.quote`'s safe-character test: the ASCII regex search for a
character outside the class "word, at, percent, plus, equals, colon, comma,
dot, slash, hyphen" finds nothing, i.e. every character is ASCII
alphanumeric, underscore, or one of those punctuation marks. -/
def shlexSafeChar (c : Char) : Bool :=
  ('a' ≤ c && c ≤ 'z') || ('A' ≤ c && c ≤ 'Z') || ('0' ≤ c && c ≤ '9') ||
  c = '_' || c = '@' || c = '%' || c = '+' || c = '=' || c = ':' ||
  c = ',' || c = '.' || c = '/' || c = '-'

/-- `s.replace("'", "'\"'\"'")` applied characterwise: a single quote
becomes close-quote, double-quoted quote, reopen-quote. -/
def shlexEscChar (c : Char) : List Char :=
  if c = '\'' then ['\'', '"', '\'', '"', '\''] else [c]

/-- Python `shlex.quote(s)`: empty string becomes `''`; a string of safe
characters is returned unchanged; otherwise wrap in single quotes with
embedded single quotes escaped. -/
def shlexQuote (s : Str) : Str :=
  if s = [] then ['\'', '\'']
  else if s.all shlexSafeChar then s
  else '\'' :: s.flatMap shlexEscChar ++ ['\'']

/-! ## Data model

Menu items (the duck-typed classes implementing the `MenuItem` protocol:
`BackMenuItem`, `TerminalMenuItem`, `CdSubmenu.ToggleHiddenMenuItem`,
`CdMenuItem`), menu objects (`Menu` and its mutable subclass `CdSubmenu`),
and the program state `MmmState` (menu stack) together with the object
heap that gives mutable menus their identity. -/

/-- One entry yielded by `Path('.').iterdir()`: a name and whether
`p.is_dir()` holds. -/
structure DirEntry where
  name : Str
  isDir : Bool
deriving DecidableEq, Repr

/-- The directory listing the script reads through `pathlib`. -/
abbrev Env := List DirEntry

/-- The menu-item classes of `mmm.py`.  `back` is `BackMenuItem` (its
`state` reference is implicit: actions receive the state).  `terminal name
cmd` is `TerminalMenuItem(name, cmd)`; the one-argument form
`TerminalMenuItem(name)` is `terminal name name` (the constructor defaults
`cmd` to `name`).  `toggleHidden ref` is `CdSubmenu.ToggleHiddenMenuItem`
holding a reference `ref` (heap index) to its owning `CdSubmenu`.
`cdItem name show_hidden` is `CdMenuItem`. -/
inductive MenuItemD where
  | back : MenuItemD
  | terminal (name cmd : Str) : MenuItemD
  | toggleHidden (ref : Nat) : MenuItemD
  | cdItem (name : Str) (show_hidden : Bool) : MenuItemD
deriving DecidableEq, Repr

/-- A menu object on the heap: a plain `Menu` (immutable item list) or a
`CdSubmenu` (mutable item list plus its `show_hidden` flag). -/
inductive MenuObj where
  | plain (items : List MenuItemD) : MenuObj
  | cdSub (show_hidden : Bool) (items : List MenuItemD) : MenuObj
deriving DecidableEq, Repr

/-- `menu.menu_items` for either kind of menu object. -/
def MenuObj.items : MenuObj → List MenuItemD
  | .plain its => its
  | .cdSub _ its => its

/-- `MmmState` plus the object heap: `menus` assigns each allocated menu
object an index (its identity); `menu_stack` holds indices, the last one
being the current menu. -/
structure MmmState where
  menus : List MenuObj
  menu_stack : List Nat
deriving DecidableEq, Repr

/-- `MmmState.pop_menu`: `self.menu_stack.pop()` removes the last element.
(Python raises `IndexError` on an empty list; the callers below only pop
with a current menu present, and `do_action` guards the empty case.) -/
def pop_menu (s : MmmState) : MmmState :=
  { s with menu_stack := s.menu_stack.dropLast }

/-- `MmmState.push_menu`: append a menu (here: its heap index). -/
def push_menu (s : MmmState) (m : Nat) : MmmState :=
  { s with menu_stack := s.menu_stack ++ [m] }

/-- `MmmState.get_menu`: the last stacked menu, or `None` when the stack is
empty (the `IndexError` is caught and turned into `None`). -/
def get_menu (s : MmmState) : Option MenuObj :=
  s.menu_stack.getLast?.bind (fun i => s.menus.get? i)

/-- `MmmState.menu_stack_length`. -/
def menu_stack_length (s : MmmState) : Nat := s.menu_stack.length

/-- `CdSubmenu.get_valid_subdirs`: iterate the current directory, skip
non-directories, and keep hidden entries (name starting with a dot) only
when `show_hidden` is set. -/
def get_valid_subdirs (show_hidden : Bool) (env : Env) : List Str :=
  ((env.filter fun e => e.isDir &&
      (show_hidden || !(e.name.head? = some '.' : Bool))).map DirEntry.name)

/-- `CdSubmenu.make_cd_menuitem`: `TerminalMenuItem(p.name, "cd " +
shlex.quote(p.name))`. -/
def make_cd_menuitem (name : Str) : MenuItemD :=
  .terminal name (str "cd " ++ shlexQuote name)

/-- `CdSubmenu.build_menu_items`: the back item and the hidden-toggle item
(referencing the submenu itself, at heap index `selfRef`), followed by one
cd item per valid subdirectory. -/
def build_menu_items (selfRef : Nat) (show_hidden : Bool) (env : Env) :
    List MenuItemD :=
  [.back, .toggleHidden selfRef] ++
    (get_valid_subdirs show_hidden env).map make_cd_menuitem

/-- The `CdSubmenu` object as built by `CdSubmenu.__init__` (which calls
`refresh`) for a submenu allocated at heap index `selfRef`. -/
def cdSubmenuObj (selfRef : Nat) (show_hidden : Bool) (env : Env) : MenuObj :=
  .cdSub show_hidden (build_menu_items selfRef show_hidden env)

/-- Python exceptions that the script can raise and never catches. -/
inductive PyErr where
  | valueError : PyErr
  | indexError : PyErr
  | attributeError : PyErr
deriving DecidableEq, Repr

/-- `Menu.parse_selection`: `self.menu_items[int(input)]`.  `int` raises
`ValueError` on a malformed string; indexing raises `IndexError` out of
range (Python semantics, negative indices included). -/
def parse_selection (m : MenuObj) (input : Str) : Except PyErr MenuItemD :=
  match pyInt input with
  | none => .error .valueError
  | some i =>
    match pyIndex m.items i with
    | none => .error .indexError
    | some it => .ok it

/-- `get_name` of each menu-item class.  `BackMenuItem` renders `(Quit)`
when the stack depth is at most 1, else `(Go Back)`; the toggle item reads
its submenu's current flag (a `ToggleHiddenMenuItem` in the program always
references an allocated `CdSubmenu`, so the fallback for a dangling or
non-submenu reference, which in Python would be an `AttributeError`, is
never exercised). -/
def get_name (s : MmmState) : MenuItemD → Str
  | .back => if menu_stack_length s ≤ 1 then str "(Quit)" else str "(Go Back)"
  | .terminal name _ => name
  | .toggleHidden ref =>
    match s.menus.get? ref with
    | some (.cdSub b _) => if b then str "(Hide Hidden)" else str "(Show Hidden)"
    | _ => []
  | .cdItem name _ => name

/-- `Menu.print_menu`: one output line per item, in item order, formatted
by the f-string as index, close parenthesis, tab, item name. -/
def print_menu (s : MmmState) (m : MenuObj) : List Str :=
  m.items.enum.map fun p => natStr p.1 ++ [')', '\t'] ++ get_name s p.2

/-! ## Side effects, action dispatch, and the run loop -/

/-- `termios.TIOCSTI` on Linux (`0x5412`): the terminal-input-injection
ioctl request. -/
def TIOCSTI : Nat := 0x5412

/-- Observable side effects: an `ioctl(fd, req, byte)` call injecting one
byte, and a line printed to standard output. -/
inductive Event where
  | ioctl (fd req byteVal : Nat) : Event
  | printLine (line : Str) : Event
deriving DecidableEq, Repr

/-- `TerminalMenuItem.simulate_terminal_input`: encode the string as UTF-8
and `fcntl.ioctl(0, termios.TIOCSTI, b)` each byte in order; afterwards
print an empty line if the string did not end with a newline. -/
def simulate_terminal_input (input : Str) : List Event :=
  (utf8Encode input).map (Event.ioctl 0 TIOCSTI) ++
    (if input.getLast? = some '\n' then [] else [Event.printLine []])

/-- Result of `item.do_action()`: continue the loop in a new state, quit
the process with an exit code (`quit()` raises `SystemExit`, exit status
0), or raise an exception. -/
inductive ActionResult where
  | cont (s : MmmState) (events : List Event) : ActionResult
  | quitProgram (code : Nat) (events : List Event) : ActionResult
  | raised (e : PyErr) (events : List Event) : ActionResult
deriving DecidableEq, Repr

/-- `do_action` of each menu-item class.
`BackMenuItem`: pop the stack (popping an empty stack would raise).
`TerminalMenuItem`: `simulate_terminal_input(self.cmd + '\n')` then
`quit()`.  `ToggleHiddenMenuItem`: flip the owning submenu's
`show_hidden`, then `refresh()` rebuilds its item list in place (same heap
index, `menu_items.clear()` followed by `extend(build_menu_items())`).
`CdMenuItem`: construct a fresh `CdSubmenu(self.state)` (note: with the
default `show_hidden=False`, its own flag unused) and push it. -/
def do_action (env : Env) (s : MmmState) : MenuItemD → ActionResult
  | .back =>
    match s.menu_stack with
    | [] => .raised .indexError []
    | _ :: _ => .cont (pop_menu s) []
  | .terminal _ cmd =>
    .quitProgram 0 (simulate_terminal_input (cmd ++ ['\n']))
  | .toggleHidden ref =>
    match s.menus.get? ref with
    | some (.cdSub b _) =>
      let b' := !b
      .cont { s with menus := s.menus.set ref (.cdSub b' (build_menu_items ref b' env)) } []
    | _ => .raised .attributeError []
  | .cdItem _ _ =>
    let newRef := s.menus.length
    .cont { menus := s.menus ++ [cdSubmenuObj newRef false env],
            menu_stack := s.menu_stack ++ [newRef] } []

/-- How a run of `MmmApplication.run` ends: the loop `break`s with the
stack empty (process then exits 0), a `TerminalMenuItem` quits (exit 0),
an uncaught exception crashes the process, or the scripted input is
exhausted while the loop still wants a line. -/
inductive Outcome where
  | exitCode (code : Nat) : Outcome
  | crash (e : PyErr) : Outcome
  | needInput : Outcome
deriving DecidableEq, Repr

/-- The `while True` loop of `MmmApplication.run`, driven by a finite
script of input lines: take the current menu (`break` when `None`), print
it and read a line (`ask_and_get_selected_item`), parse the selection, and
dispatch `do_action`.  No exception is caught anywhere, so a parse or
action error crashes.  Returns the outcome and the trace of events. -/
def runLoop (env : Env) : List Str → MmmState → Outcome × List Event
  | inputs, s =>
    match get_menu s with
    | none => (.exitCode 0, [])
    | some m =>
      match inputs with
      | [] => (.needInput, (print_menu s m).map Event.printLine)
      | line :: rest =>
        let shown := (print_menu s m).map Event.printLine
        match parse_selection m line with
        | .error e => (.crash e, shown)
        | .ok it =>
          match do_action env s it with
          | .cont s' evs =>
            let r := runLoop env rest s'
            (r.1, shown ++ evs ++ r.2)
          | .quitProgram c evs => (.exitCode c, shown ++ evs)
          | .raised e evs => (.crash e, shown ++ evs)

/-! ## Configuration loading and the initial menu -/

/-- `CustomMenuLoader.load_menu_file`, parameterized by the lines that
iterating the open file yields (each line keeps its trailing newline,
except possibly the last): one `TerminalMenuItem(line.rstrip())` per line,
whose command defaults to its name. -/
def load_menu_file (lines : List Str) : List MenuItemD :=
  lines.map fun line => .terminal (rstrip line) (rstrip line)

/-- `CustomMenuLoader.load_custom_menu`, parameterized by the discovered
file's lines (`none` when no `.mmm-menufile` was found in the current
directory or any ancestor): the loaded items, or no contribution. -/
def load_custom_menu (file : Option (List Str)) : List MenuItemD :=
  match file with
  | some lines => load_menu_file lines
  | none => []

/-- `InitialMenuBuilder.build_initial_menu`: the back item, then the custom
items from the configuration file, then the `CdMenuItem` (constructed with
name `"cd"` and `show_hidden=False`). -/
def build_initial_menu (file : Option (List Str)) : MenuObj :=
  .plain ([.back] ++ load_custom_menu file ++ [.cdItem (str "cd") false])

/-- The state `MmmApplication.run` builds before entering its loop: a fresh
`MmmState` with the initial menu pushed (heap index 0). -/
def initState (file : Option (List Str)) : MmmState :=
  push_menu { menus := [build_initial_menu file], menu_stack := [] } 0

/-- `MmmApplication.run` from the start: build the state and loop. -/
def runApplication (env : Env) (file : Option (List Str))
    (inputs : List Str) : Outcome × List Event :=
  runLoop env inputs (initState file)

/-! ## Helper lemmas -/

theorem utf8Encode_append (a b : Str) :
    utf8Encode (a ++ b) = utf8Encode a ++ utf8Encode b :=
  List.flatMap_append a b utf8EncodeChar

theorem utf8EncodeChar_newline : utf8EncodeChar '\n' = [10] := by decide

/-- Appending the newline that `TerminalMenuItem.do_action` adds makes
`simulate_terminal_input` inject exactly the command's bytes followed by
one `0x0A` byte, and print nothing. -/
theorem simulate_cmd_newline (cmd : Str) :
    simulate_terminal_input (cmd ++ ['\n']) =
      (utf8Encode cmd ++ [10]).map (Event.ioctl 0 TIOCSTI) := by
  unfold simulate_terminal_input
  rw [List.getLast?_concat, utf8Encode_append]
  simp [utf8Encode, utf8EncodeChar_newline]

/-! ## Claims -/

/-- C8: for every menu with `n` items, `print_menu` produces exactly `n`
display lines, one per item in item order, the `i`-th (zero-based) being
the index `i`, a close parenthesis, a tab, and the item's label. -/
theorem print_menu_lines (s : MmmState) (m : MenuObj) :
    (print_menu s m).length = m.items.length ∧
    ∀ (i : Nat) (it : MenuItemD), m.items.get? i = some it →
      (print_menu s m).get? i =
        some (natStr i ++ [')', '\t'] ++ get_name s it) := by
  constructor
  · simp [print_menu, List.enum_length]
  · intro i it h
    rw [List.get?_eq_getElem?] at h ⊢
    simp [print_menu, List.getElem?_map, List.getElem?_enum, h]

/-- Witness for `print_menu_lines` at the root menu of an empty
configuration: line 0 shows the back item. -/
theorem print_menu_lines_witness :
    (print_menu (initState none) (build_initial_menu none)).get? 0 =
      some (natStr 0 ++ [')', '\t'] ++
        get_name (initState none) MenuItemD.back) :=
  (print_menu_lines (initState none) (build_initial_menu none)).2 0
    MenuItemD.back rfl

/-- With an empty menu stack, `get_menu` is `None` and the loop breaks at
once: exit status 0, no further events. -/
theorem runLoop_empty_stack (env : Env) (inputs : List Str) (s : MmmState)
    (h : s.menu_stack = []) : runLoop env inputs s = (.exitCode 0, []) := by
  rw [runLoop]
  simp [get_menu, h]

/-- C4: popping at stack depth 1 empties the stack and the run loop exits
with status 0; popping at depth `n + 2` leaves a nonempty stack whose new
current menu is the one at stack position `n` — the menu pushed just
before the popped one. -/
theorem pop_menu_transitions (env : Env) (s : MmmState) :
    (menu_stack_length s = 1 →
      (pop_menu s).menu_stack = [] ∧
      ∀ inputs, runLoop env inputs (pop_menu s) = (.exitCode 0, [])) ∧
    (∀ n : Nat, menu_stack_length s = n + 2 →
      (pop_menu s).menu_stack ≠ [] ∧
      get_menu (pop_menu s) =
        (s.menu_stack.get? n).bind (fun i => s.menus.get? i)) := by
  constructor
  · intro h1
    have hnil : (pop_menu s).menu_stack = [] := by
      have : (pop_menu s).menu_stack.length = 0 := by
        simp [pop_menu, List.length_dropLast, menu_stack_length] at h1 ⊢
        omega
      exact List.eq_nil_of_length_eq_zero this
    exact ⟨hnil, fun inputs => runLoop_empty_stack env inputs _ hnil⟩
  · intro n h2
    have hlen : (pop_menu s).menu_stack.length = n + 1 := by
      simp [pop_menu, List.length_dropLast, menu_stack_length] at h2 ⊢
      omega
    constructor
    · intro hn
      rw [hn] at hlen
      simp at hlen
    · show (pop_menu s).menu_stack.getLast?.bind _ = _
      rw [List.getLast?_eq_getElem?, hlen]
      simp only [pop_menu, Nat.add_sub_cancel, List.getElem?_dropLast,
        List.get?_eq_getElem?]
      rw [if_pos (by simp [menu_stack_length] at h2; omega)]

/-- A one-menu state: the root menu alone on the stack. -/
def sampleDepth1 : MmmState := ⟨[MenuObj.plain [MenuItemD.back]], [0]⟩

/-- A two-menu state: root menu with a directory submenu pushed on top. -/
def sampleDepth2 : MmmState :=
  ⟨[MenuObj.plain [MenuItemD.back], cdSubmenuObj 1 false []], [0, 1]⟩

/-- Witness for `pop_menu_transitions`: a concrete one-deep stack pops to
loop exit, and a concrete two-deep stack pops to the first menu. -/
theorem pop_menu_transitions_witness :
    (pop_menu sampleDepth1).menu_stack = [] ∧
    runLoop [] [str "0"] (pop_menu sampleDepth1) = (.exitCode 0, []) ∧
    get_menu (pop_menu sampleDepth2) =
      (sampleDepth2.menu_stack.get? 0).bind
        (fun i => sampleDepth2.menus.get? i) :=
  ⟨((pop_menu_transitions [] sampleDepth1).1 rfl).1,
   ((pop_menu_transitions [] sampleDepth1).1 rfl).2 [str "0"],
   ((pop_menu_transitions [] sampleDepth2).2 0 rfl).2⟩

/-- C3: executing a `TerminalMenuItem` injects exactly the UTF-8 bytes of
its command followed by one newline byte, each by an `ioctl(0, TIOCSTI, ·)`
call in order, and quits with exit status 0; when the loop dispatches it,
the run ends right there with status 0, no matter what input would have
followed. -/
theorem terminal_item_injects (env : Env) (s : MmmState) (name cmd : Str)
    (m : MenuObj) (line : Str) (rest : List Str)
    (hm : get_menu s = some m)
    (hsel : parse_selection m line = .ok (.terminal name cmd)) :
    do_action env s (.terminal name cmd) =
      .quitProgram 0 ((utf8Encode cmd ++ [10]).map (Event.ioctl 0 TIOCSTI)) ∧
    runLoop env (line :: rest) s =
      (.exitCode 0, (print_menu s m).map Event.printLine ++
        (utf8Encode cmd ++ [10]).map (Event.ioctl 0 TIOCSTI)) := by
  have hdo : do_action env s (.terminal name cmd) =
      .quitProgram 0 ((utf8Encode cmd ++ [10]).map (Event.ioctl 0 TIOCSTI)) := by
    show ActionResult.quitProgram 0 (simulate_terminal_input (cmd ++ ['\n'])) = _
    rw [simulate_cmd_newline]
  refine ⟨hdo, ?_⟩
  rw [runLoop, hm]
  simp only [hsel, hdo]

/-- The root menu when the configuration file consists of one line. -/
def sampleFooFile : Option (List Str) := some [str "foo\n"]

/-- Witness for `terminal_item_injects`: with the configuration line
`foo`, selecting `1` injects `f`, `o`, `o`, newline and exits 0. -/
theorem terminal_item_injects_witness :
    runLoop [] [str "1"] (initState sampleFooFile) =
      (.exitCode 0,
        (print_menu (initState sampleFooFile)
            (build_initial_menu sampleFooFile)).map Event.printLine ++
          (utf8Encode (str "foo") ++ [10]).map (Event.ioctl 0 TIOCSTI)) :=
  (terminal_item_injects [] (initState sampleFooFile) (str "foo") (str "foo")
    (build_initial_menu sampleFooFile) (str "1") [] rfl rfl).2

/-- C7: executing the hidden-entries toggle of a directory submenu flips
its flag and rebuilds its item list in place: the same heap slot (same
object identity) holds a submenu with the negated flag and freshly built
items, the heap allocates nothing, every other menu object is untouched,
and the menu stack — depth, positions, neighbors — is exactly as before. -/
theorem toggle_hidden_in_place (env : Env) (s : MmmState) (ref : Nat)
    (b : Bool) (items : List MenuItemD)
    (h : s.menus.get? ref = some (.cdSub b items)) :
    do_action env s (.toggleHidden ref) =
      .cont { s with menus := s.menus.set ref (cdSubmenuObj ref (!b) env) } [] ∧
    ({ s with menus := s.menus.set ref (cdSubmenuObj ref (!b) env) }
      : MmmState).menu_stack = s.menu_stack ∧
    (s.menus.set ref (cdSubmenuObj ref (!b) env)).length = s.menus.length ∧
    (s.menus.set ref (cdSubmenuObj ref (!b) env)).get? ref =
      some (cdSubmenuObj ref (!b) env) ∧
    ∀ r, r ≠ ref →
      (s.menus.set ref (cdSubmenuObj ref (!b) env)).get? r = s.menus.get? r := by
  have href : ref < s.menus.length := by
    rw [List.get?_eq_getElem?] at h
    exact (List.getElem?_eq_some.mp h).1
  refine ⟨?_, rfl, List.length_set .., ?_, ?_⟩
  · simp only [do_action]
    rw [h]
    rfl
  · rw [List.get?_eq_getElem?, List.getElem?_set_self href]
  · intro r hr
    rw [List.get?_eq_getElem?, List.get?_eq_getElem?]
    exact List.getElem?_set_ne (fun he => hr he.symm)

/-- A directory listing with one visible and one hidden subdirectory. -/
def sampleCdEnv : Env := [⟨str "proj", true⟩, ⟨str ".git", true⟩]

/-- A state whose current menu is a directory submenu (heap slot 1) over
`sampleCdEnv`, hidden entries not shown. -/
def sampleCdState : MmmState :=
  ⟨[build_initial_menu none, cdSubmenuObj 1 false sampleCdEnv], [0, 1]⟩

/-- `sampleCdState` after its submenu's hidden-entries toggle runs. -/
def sampleCdStateToggled : MmmState :=
  ⟨[build_initial_menu none, cdSubmenuObj 1 true sampleCdEnv], [0, 1]⟩

/-- Witness for `toggle_hidden_in_place`: toggling the submenu of
`sampleCdState` flips its flag and rebuilds it in heap slot 1, leaving
the stack and the root menu at slot 0 untouched. -/
theorem toggle_hidden_in_place_witness :
    do_action sampleCdEnv sampleCdState (.toggleHidden 1) =
      .cont sampleCdStateToggled [] ∧
    sampleCdStateToggled.menu_stack = sampleCdState.menu_stack ∧
    sampleCdStateToggled.menus.length = sampleCdState.menus.length ∧
    sampleCdStateToggled.menus.get? 1 = some (cdSubmenuObj 1 true sampleCdEnv) ∧
    sampleCdStateToggled.menus.get? 0 = sampleCdState.menus.get? 0 :=
  have h := toggle_hidden_in_place sampleCdEnv sampleCdState 1 false
    (build_menu_items 1 false sampleCdEnv) rfl
  ⟨h.1, h.2.1, h.2.2.1, h.2.2.2.1, h.2.2.2.2 0 (by decide)⟩

/-- Invariant: every menu object the program has allocated has the back
item at index 0. -/
def HeapBackInv (s : MmmState) : Prop :=
  ∀ mo ∈ s.menus, mo.items.get? 0 = some .back

/-- States reachable by `MmmApplication.run`: the state built at startup,
then anything an executed action's `cont` result can produce.  (This
over-approximates real runs: it allows any item's action, not only items
of the current menu.) -/
inductive Reachable (env : Env) (file : Option (List Str)) : MmmState → Prop
  | init : Reachable env file (initState file)
  | step {s s' : MmmState} {it : MenuItemD} {evs : List Event} :
      Reachable env file s → do_action env s it = .cont s' evs →
      Reachable env file s'

theorem heapBackInv_init (file : Option (List Str)) :
    HeapBackInv (initState file) := by
  intro mo hmo
  simp [initState, push_menu] at hmo
  subst hmo
  rfl

theorem heapBackInv_step (env : Env) {s s' : MmmState} {it : MenuItemD}
    {evs : List Event} (hinv : HeapBackInv s)
    (hstep : do_action env s it = .cont s' evs) : HeapBackInv s' := by
  cases it with
  | back =>
    cases hstack : s.menu_stack with
    | nil => rw [do_action, hstack] at hstep; cases hstep
    | cons a l =>
      rw [do_action, hstack] at hstep
      cases hstep
      exact hinv
  | terminal name cmd => cases hstep
  | toggleHidden ref =>
    rw [do_action] at hstep
    cases hget : s.menus.get? ref with
    | none => rw [hget] at hstep; cases hstep
    | some mo =>
      cases mo with
      | plain its => rw [hget] at hstep; cases hstep
      | cdSub b its =>
        rw [hget] at hstep
        cases hstep
        intro mo hmo
        rcases List.mem_or_eq_of_mem_set hmo with hmem | heq
        · exact hinv mo hmem
        · subst heq; rfl
  | cdItem name sh =>
    rw [do_action] at hstep
    cases hstep
    intro mo hmo
    rcases List.mem_append.mp hmo with hmem | heq
    · exact hinv mo hmem
    · rw [List.mem_singleton.mp heq]; rfl

theorem heapBackInv_reachable {env : Env} {file : Option (List Str)}
    {s : MmmState} (hr : Reachable env file s) : HeapBackInv s := by
  induction hr with
  | init => exact heapBackInv_init file
  | step _ hstep ih => exact heapBackInv_step env ih hstep

/-- C9: every menu the program ever makes current — the root menu and any
directory submenu, after any number of toggles — has the back item at
index 0; the input `0` therefore parses to the back item, whose action
pops the stack (navigate back). -/
theorem current_menu_back_at_zero (env : Env) (file : Option (List Str))
    (s : MmmState) (m : MenuObj) (hr : Reachable env file s)
    (hm : get_menu s = some m) :
    m.items.get? 0 = some .back ∧
    parse_selection m (str "0") = .ok .back ∧
    do_action env s .back = .cont (pop_menu s) [] := by
  have hinv : HeapBackInv s := heapBackInv_reachable hr
  have hmem : m ∈ s.menus := by
    rcases Option.bind_eq_some.mp hm with ⟨i, _, hi⟩
    exact List.getElem?_mem (List.get?_eq_getElem? .. ▸ hi)
  have h0 : m.items.get? 0 = some .back := hinv m hmem
  refine ⟨h0, ?_, ?_⟩
  · unfold parse_selection
    have h1 : pyInt (str "0") = some 0 := rfl
    rw [h1]
    have hidx : pyIndex m.items (0 : Int) = some MenuItemD.back := by
      unfold pyIndex
      rw [if_pos le_rfl]
      exact h0
    show (match pyIndex m.items (0 : Int) with
      | none => Except.error PyErr.indexError
      | some it => Except.ok it) = Except.ok MenuItemD.back
    rw [hidx]
  · cases hstack : s.menu_stack with
    | nil =>
      rw [get_menu, hstack] at hm
      cases hm
    | cons a l => rw [do_action, hstack]

/-- Witness for `current_menu_back_at_zero`: the initial state with no
configuration file; its current menu is the two-item root menu. -/
theorem current_menu_back_at_zero_witness :
    (build_initial_menu none).items.get? 0 = some .back ∧
    parse_selection (build_initial_menu none) (str "0") = .ok .back ∧
    do_action [] (initState none) .back = .cont (pop_menu (initState none)) [] :=
  current_menu_back_at_zero [] none (initState none) (build_initial_menu none)
    Reachable.init rfl

/-! ## Shell word splitting

Spec-side definition used to judge C10's "a single correctly quoted shell
word": POSIX field splitting restricted to the quoting constructs that
`shlex.quote` output can contain — unquoted spaces separate words, single
quotes make everything up to the next single quote literal, double quotes
make a single-quote character literal. -/

/-- Quoting state of the splitter: outside quotes, inside single quotes,
or inside double quotes. -/
inductive QuoteMode where
  | bare : QuoteMode
  | single : QuoteMode
  | double : QuoteMode
deriving DecidableEq, Repr

/-- One pass of POSIX-style field splitting.  `started` records whether the
current word has begun (so `''` yields an empty word rather than nothing);
`cur` holds the current word reversed. -/
def fieldsAux (mode : QuoteMode) (started : Bool) (cur : List Char) :
    List Char → List (List Char)
  | [] => if started then [cur.reverse] else []
  | c :: cs =>
    match mode with
    | .bare =>
      if c = ' ' then
        if started then cur.reverse :: fieldsAux .bare false [] cs
        else fieldsAux .bare false [] cs
      else if c = '\'' then fieldsAux .single true cur cs
      else if c = '"' then fieldsAux .double true cur cs
      else fieldsAux .bare true (c :: cur) cs
    | .single =>
      if c = '\'' then fieldsAux .bare started cur cs
      else fieldsAux .single started (c :: cur) cs
    | .double =>
      if c = '"' then fieldsAux .bare started cur cs
      else fieldsAux .double started (c :: cur) cs

/-- Split a string into shell words. -/
def shellFields (s : Str) : List Str := fieldsAux .bare false [] s

/-- Consuming the escaped body of a `shlex.quote` single-quoted string:
from inside single quotes, the escaped form of `s` followed by a closing
quote lands back outside quotes with exactly `s` appended to the current
word. -/
theorem fieldsAux_esc_body (s : Str) : ∀ (cur : List Char) (cs : List Char),
    fieldsAux .single true cur (s.flatMap shlexEscChar ++ '\'' :: cs) =
      fieldsAux .bare true (s.reverse ++ cur) cs := by
  induction s with
  | nil => intro cur cs; simp [fieldsAux]
  | cons c s ih =>
    intro cur cs
    by_cases hc : c = '\''
    · subst hc
      simp [List.flatMap_cons, shlexEscChar, fieldsAux]
      simpa using ih ('\'' :: cur) cs
    · simp [List.flatMap_cons, shlexEscChar, hc, fieldsAux]
      simpa using ih (c :: cur) cs

/-- Safe characters are not spaces or quotes. -/
theorem shlexSafeChar_not_special {c : Char} (h : shlexSafeChar c = true) :
    c ≠ ' ' ∧ c ≠ '\'' ∧ c ≠ '"' := by
  refine ⟨?_, ?_, ?_⟩ <;> rintro rfl <;> simp [shlexSafeChar] at h

/-- A run of safe characters extends the current word and ends it at the
end of input. -/
theorem fieldsAux_safe_run : ∀ s : Str, s.all shlexSafeChar = true →
    ∀ cur : List Char, fieldsAux .bare true cur s = [cur.reverse ++ s] := by
  intro s
  induction s with
  | nil => intro _ cur; simp [fieldsAux]
  | cons c s ih =>
    intro hs cur
    rw [List.all_cons, Bool.and_eq_true] at hs
    obtain ⟨h1, h2, h3⟩ := shlexSafeChar_not_special hs.1
    show fieldsAux .bare true cur (c :: s) = _
    simp [fieldsAux, h1, h2, h3, ih hs.2 (c :: cur)]

/-- `shlex.quote` output always splits back to the single original word. -/
theorem shellFields_shlexQuote (s : Str) : shellFields (shlexQuote s) = [s] := by
  unfold shellFields shlexQuote
  by_cases hnil : s = []
  · subst hnil
    rw [if_pos rfl]
    rfl
  · rw [if_neg hnil]
    by_cases hsafe : s.all shlexSafeChar
    · rw [if_pos hsafe]
      cases s with
      | nil => exact absurd rfl hnil
      | cons c s =>
        rw [List.all_cons, Bool.and_eq_true] at hsafe
        obtain ⟨h1, h2, h3⟩ := shlexSafeChar_not_special hsafe.1
        show fieldsAux .bare false [] (c :: s) = _
        simp [fieldsAux, h1, h2, h3, fieldsAux_safe_run s hsafe.2 [c]]
    · rw [if_neg hsafe]
      show fieldsAux .bare false [] ('\'' :: (s.flatMap shlexEscChar ++ '\'' :: [])) = _
      simp [fieldsAux, fieldsAux_esc_body s [] []]

/-- C10: for every subdirectory name, the cd submenu's item is a
`TerminalMenuItem` whose command is `cd ` followed by `shlex.quote` of the
name; executing it injects exactly that command's bytes plus a newline;
and the quoted command splits into exactly the two shell words `cd` and
the original name — one correctly quoted word even for names with spaces
or metacharacters. -/
theorem cd_menuitem_quotes (name : Str) (env : Env) (s : MmmState) :
    make_cd_menuitem name =
      .terminal name (str "cd " ++ shlexQuote name) ∧
    do_action env s (make_cd_menuitem name) =
      .quitProgram 0
        ((utf8Encode (str "cd " ++ shlexQuote name) ++ [10]).map
          (Event.ioctl 0 TIOCSTI)) ∧
    shellFields (str "cd " ++ shlexQuote name) = [str "cd", name] := by
  refine ⟨rfl, ?_, ?_⟩
  · show ActionResult.quitProgram 0
      (simulate_terminal_input ((str "cd " ++ shlexQuote name) ++ ['\n'])) = _
    rw [simulate_cmd_newline]
  · have hq : fieldsAux .bare false [] (shlexQuote name) = [name] :=
      shellFields_shlexQuote name
    show fieldsAux .bare false [] ('c' :: 'd' :: ' ' :: shlexQuote name) = _
    simp [fieldsAux, hq]
    rfl

/-- A two-item menu used to exhibit Python's negative-index selection. -/
def sampleTwoItemMenu : MenuObj :=
  .plain [.back, .terminal (str "a") (str "a")]

/-- C1 counterexample: the claim says a negative parsed integer fails with
an out-of-range error, but on the two-item menu the input `-1` succeeds
and returns the last item (Python negative indexing). -/
theorem parse_selection_negative_ok :
    parse_selection sampleTwoItemMenu (str "-1") =
      .ok (.terminal (str "a") (str "a")) ∧
    parse_selection sampleTwoItemMenu (str "-1") ≠ .error .indexError ∧
    parse_selection sampleTwoItemMenu (str "-1") ≠ .error .valueError := by
  refine ⟨rfl, ?_, ?_⟩ <;>
    · intro h
      rw [show parse_selection sampleTwoItemMenu (str "-1") =
        .ok (.terminal (str "a") (str "a")) from rfl] at h
      cases h

/-- C1 amended: `parse_selection` fails with `ValueError` when `int`
cannot parse the input; given a parsed integer `i` over `n` items, it
fails with `IndexError` exactly when `i < -n` or `i ≥ n`; an in-range
nonnegative `i = j` returns the item at index `j`, and an in-range
negative `i = j - n` (with `0 ≤ j < n`) returns the item at index `j` —
Python's negative indexing, not an error. -/
theorem parse_selection_characterization (m : MenuObj) (input : Str) :
    (pyInt input = none → parse_selection m input = .error .valueError) ∧
    ∀ i : Int, pyInt input = some i →
      ((parse_selection m input = .error .indexError) ↔
        (i < -(m.items.length : Int) ∨ (m.items.length : Int) ≤ i)) ∧
      ∀ j : Nat, j < m.items.length →
        (i = (j : Int) ∨ i = (j : Int) - (m.items.length : Int)) →
        ∃ it, m.items.get? j = some it ∧ parse_selection m input = .ok it := by
  constructor
  · intro hnone
    unfold parse_selection
    rw [hnone]
  · intro i hi
    have hsel : parse_selection m input =
        (match pyIndex m.items i with
          | none => .error .indexError
          | some it => .ok it) := by
      unfold parse_selection
      rw [hi]
    constructor
    · rw [hsel]
      constructor
      · intro herr
        cases hidx : pyIndex m.items i with
        | none =>
          unfold pyIndex at hidx
          by_cases hpos : 0 ≤ i
          · rw [if_pos hpos] at hidx
            right
            rw [List.get?_eq_getElem?, List.getElem?_eq_none_iff] at hidx
            omega
          · rw [if_neg hpos] at hidx
            by_cases hneg : 0 ≤ (m.items.length : Int) + i
            · rw [if_pos hneg] at hidx
              rw [List.get?_eq_getElem?, List.getElem?_eq_none_iff] at hidx
              omega
            · left; omega
        | some it => rw [hidx] at herr; cases herr
      · intro hout
        have hidx : pyIndex m.items i = none := by
          unfold pyIndex
          rcases hout with hlt | hge
          · rw [if_neg (by omega), if_neg (by omega)]
          · rw [if_pos (by omega), List.get?_eq_getElem?,
              List.getElem?_eq_none_iff]
            omega
        rw [hidx]
    · intro j hj hij
      have hget : ∃ it, m.items.get? j = some it := by
        rw [List.get?_eq_getElem?]
        exact ⟨m.items[j], List.getElem?_eq_some.mpr ⟨hj, rfl⟩⟩
      obtain ⟨it, hit⟩ := hget
      refine ⟨it, hit, ?_⟩
      have hidx : pyIndex m.items i = some it := by
        unfold pyIndex
        rcases hij with rfl | hneg
        · rw [if_pos (by omega)]
          simpa using hit
        · rw [if_neg (by omega), if_pos (by omega)]
          have : ((m.items.length : Int) + (
              (j : Int) - (m.items.length : Int))).toNat = j := by omega
          rw [hneg, this]
          exact hit
      rw [hsel, hidx]

/-- Witness for `parse_selection_characterization`: on the two-item menu,
input `-1` parses to the integer `-1 = 1 - 2` and selects item 1. -/
theorem parse_selection_characterization_witness :
    parse_selection sampleTwoItemMenu (str "-1") =
      .ok (.terminal (str "a") (str "a")) := by
  obtain ⟨it, hit, hsel⟩ :=
    ((parse_selection_characterization sampleTwoItemMenu (str "-1")).2
      (-1) rfl).2 1 (by decide) (by decide)
  have hit' : it = .terminal (str "a") (str "a") := by
    rw [show sampleTwoItemMenu.items.get? 1 =
      some (MenuItemD.terminal (str "a") (str "a")) from rfl] at hit
    exact (Option.some.inj hit).symm
  rw [← hit']
  exact hsel

/-- C2 counterexample: with the root menu (no configuration file, 2 items)
current and the out-of-range input `5`, the loop does not report and
re-prompt — the uncaught `IndexError` crashes the program. -/
theorem invalid_selection_crashes_concrete :
    (runLoop [] [str "5", str "0"] (initState none)).1 = .crash .indexError ∧
    Outcome.crash .indexError ≠ .exitCode 0 := by
  exact ⟨rfl, by decide⟩

/-- C2 amended: when the user's input is not a valid selection, the
raised exception (`ValueError` for a non-number, `IndexError` for an
out-of-Python-range index) propagates uncaught out of the loop: the
program crashes with that exception instead of re-prompting, regardless of
any further scripted input. -/
theorem invalid_selection_crashes (env : Env) (s : MmmState) (m : MenuObj)
    (line : Str) (rest : List Str) (e : PyErr)
    (hm : get_menu s = some m)
    (hsel : parse_selection m line = .error e) :
    runLoop env (line :: rest) s =
      (.crash e, (print_menu s m).map Event.printLine) := by
  rw [runLoop, hm]
  simp only [hsel]

/-- Witness for `invalid_selection_crashes`: root menu of an empty
configuration, non-numeric input `x`, one more scripted line. -/
theorem invalid_selection_crashes_witness :
    runLoop [] [str "x", str "0"] (initState none) =
      (.crash .valueError,
        (print_menu (initState none) (build_initial_menu none)).map
          Event.printLine) :=
  invalid_selection_crashes [] (initState none) (build_initial_menu none)
    (str "x") [str "0"] .valueError rfl rfl

/-- C5 counterexample: the loader is claimed to strip only the trailing
newline, but the configuration line `ls␣␣\n` (two trailing spaces) loads
as the item named `ls` — the spaces are stripped too, and the loaded name
differs from the claimed `ls␣␣`. -/
theorem load_menu_file_strips_spaces :
    load_menu_file [str "ls  \n"] = [.terminal (str "ls") (str "ls")] ∧
    (MenuItemD.terminal (str "ls") (str "ls") ≠
      MenuItemD.terminal (str "ls  ") (str "ls  ")) := by
  exact ⟨rfl, by decide⟩

/-- C5 amended: each configuration line is loaded as a `TerminalMenuItem`
whose label and command are both the line with its whole trailing
whitespace run removed (`str.rstrip()`: newline, carriage return, spaces,
tabs, form feeds, vertical tabs), verbatim otherwise: the line splits as
the kept part plus an all-whitespace suffix, and the kept part never ends
in whitespace. -/
theorem load_menu_file_rstrip (lines : List Str) (line : Str) :
    load_menu_file lines =
      lines.map (fun l => .terminal (rstrip l) (rstrip l)) ∧
    (∃ ws, line = rstrip line ++ ws ∧ ws.all isPySpace = true) ∧
    ∀ c, (rstrip line).getLast? = some c → isPySpace c = false := by
  refine ⟨rfl, ⟨(line.reverse.takeWhile isPySpace).reverse, ?_, ?_⟩, ?_⟩
  · rw [rstrip]
    rw [← List.reverse_append, List.takeWhile_append_dropWhile,
      List.reverse_reverse]
  · rw [List.all_eq_true]
    intro c hc
    exact List.mem_takeWhile_imp (List.mem_reverse.mp hc)
  · intro c hc
    rw [rstrip, List.getLast?_reverse] at hc
    have := List.head?_dropWhile_not isPySpace line.reverse
    rw [hc] at this
    exact this

/-- Witness for `load_menu_file_rstrip` on the line `ls␣␣\n`: the kept
part ends in the non-whitespace character `s`. -/
theorem load_menu_file_rstrip_witness :
    (rstrip (str "ls  \n")).getLast? = some 's' ∧ isPySpace 's' = false :=
  ⟨rfl, (load_menu_file_rstrip [str "ls  \n"] (str "ls  \n")).2.2 's' rfl⟩

/-- A configuration file of two non-empty lines and one blank line. -/
def sampleThreeLineFile : List Str := [str "a\n", str "\n", str "b\n"]

/-- C6 counterexample: with two non-empty lines and one blank line, the
root menu is NOT just the back item plus the three custom items — the
builder appends the `cd` item as well, so the menu has five items, the
last one the `CdMenuItem`. -/
theorem initial_menu_has_cd_item :
    (build_initial_menu (some sampleThreeLineFile)).items =
      [.back, .terminal (str "a") (str "a"), .terminal [] [],
        .terminal (str "b") (str "b"), .cdItem (str "cd") false] ∧
    (build_initial_menu (some sampleThreeLineFile)).items.length ≠ 4 := by
  exact ⟨by decide, by decide⟩

/-- C6 amended: for a configuration file of three lines — two non-empty
and one blank — the root menu is exactly the fixed back item, then the
three custom items in file order (the blank line yielding an
empty-labelled item), then the `cd` item. -/
theorem build_initial_menu_layout (lines : List Str)
    (_h3 : lines.length = 3)
    (_hblank : (lines.countP fun l => decide (rstrip l = [])) = 1) :
    (build_initial_menu (some lines)).items =
      [.back] ++ lines.map (fun l => .terminal (rstrip l) (rstrip l)) ++
        [.cdItem (str "cd") false] := rfl

/-- Witness for `build_initial_menu_layout` at the concrete three-line
file. -/
theorem build_initial_menu_layout_witness :
    (build_initial_menu (some sampleThreeLineFile)).items =
      [.back] ++ sampleThreeLineFile.map
          (fun l => .terminal (rstrip l) (rstrip l)) ++
        [.cdItem (str "cd") false] :=
  build_initial_menu_layout sampleThreeLineFile rfl (by decide)

end Mmm
